import Mathlib

/-!
A verification development for the telemetry engine of `src/App.js`
(plant-monitoring dashboard).  The JavaScript code is shallowly embedded:

* JS field values (which may be `undefined`, `null`, or a number) are the
  inductive type `JSVal`; JS numbers (which may additionally be `NaN` or
  `±Infinity`) are `JSNum`.  Numbers are modelled as rationals.
* `checkAlerts` (App.js lines 14-29), `calculateStats` (98-106),
  `getTrend` (118-125) and `exportToCSV` (73-96) are translated directly.
* The polling cycle `fetchData` (31-65) becomes the pure state transformer
  `fetchCycle`; the browser builtin `JSON.parse`, applied to the nested
  `body` string, is modelled as an arbitrary decode function passed in as a
  parameter, and `new Date()` as an abstract tick `now`.
* JS `Array.prototype.sort` is stable (ES2019); the call
  `json.sort((a, b) => b.timestamp - a.timestamp)` is modelled by the stable
  `List.mergeSort` with the ordering `a ≤ b ↔ cmp a b ≤ 0`, i.e.
  `b.timestamp ≤ a.timestamp`.
-/

namespace PlantDashboard

/-- A JavaScript field value as stored in a reading: `undefined`, `null`,
or a (rational-modelled) number. -/
inductive JSVal where
  | undef
  | null
  | num (q : ℚ)
deriving DecidableEq

/-- A JavaScript number: `NaN`, `Infinity`, `-Infinity`, or a finite value. -/
inductive JSNum where
  | nan
  | posInf
  | negInf
  | num (q : ℚ)
deriving DecidableEq

/-- JS `ToNumber` on a field value: `undefined ↦ NaN`, `null ↦ 0`. -/
def JSVal.toNum : JSVal → JSNum
  | .undef => .nan
  | .null => .num 0
  | .num q => .num q

/-- JS addition of a number and a finite literal (`x + 1`). -/
def JSNum.addQ : JSNum → ℚ → JSNum
  | .nan, _ => .nan
  | .posInf, _ => .posInf
  | .negInf, _ => .negInf
  | .num q, c => .num (q + c)

/-- JS subtraction of a finite literal (`x - 1`). -/
def JSNum.subQ : JSNum → ℚ → JSNum
  | .nan, _ => .nan
  | .posInf, _ => .posInf
  | .negInf, _ => .negInf
  | .num q, c => .num (q - c)

/-- JS `>` on numbers: any comparison involving `NaN` is `false`. -/
def jsGT : JSNum → JSNum → Bool
  | .nan, _ => false
  | _, .nan => false
  | .posInf, .posInf => false
  | .posInf, _ => true
  | .negInf, _ => false
  | .num _, .posInf => false
  | .num _, .negInf => true
  | .num p, .num q => decide (q < p)

/-- JS `<` on numbers. -/
def jsLT (a b : JSNum) : Bool := jsGT b a

/-- One sensor sample, with the fields the code reads
(`timestamp` required per the data model, measurements possibly
`undefined`/`null`). -/
structure Reading where
  timestamp : Int
  device_id : Option String := none
  soil_moisture : JSVal := .undef
  temperature : JSVal := .undef
  humidity : JSVal := .undef
  light_lux : JSVal := .undef
deriving DecidableEq

/-- The four measurement field names used in dynamic accesses `d[field]`. -/
inductive Field where
  | soil_moisture
  | temperature
  | humidity
  | light_lux
deriving DecidableEq

/-- Dynamic field access `d[field]`. -/
def Reading.getField (d : Reading) : Field → JSVal
  | .soil_moisture => d.soil_moisture
  | .temperature => d.temperature
  | .humidity => d.humidity
  | .light_lux => d.light_lux

/-! ## Alert Evaluator (`checkAlerts`, App.js 14-29) -/

def soilMsg : String := "🚨 Soil moisture is LOW! Plant needs water."
def tempHighMsg : String := "🔥 Temperature is HIGH!"
def tempLowMsg : String := "❄️ Temperature is LOW!"
def humMsg : String := "💧 Humidity is LOW!"

/-- The alert list built by `checkAlerts` for a (non-`undefined`) latest
reading: the four threshold tests, in source order, with JS comparison
semantics (`latest.soil_moisture < 30`, etc.). -/
def checkAlertsList (latest : Reading) : List String :=
  (if jsLT latest.soil_moisture.toNum (.num 30) then [soilMsg] else []) ++
  (if jsGT latest.temperature.toNum (.num 30) then [tempHighMsg] else []) ++
  (if jsLT latest.temperature.toNum (.num 15) then [tempLowMsg] else []) ++
  (if jsLT latest.humidity.toNum (.num 40) then [humMsg] else [])

/-! ## Trend Detector (`getTrend`, App.js 118-125) -/

/-- `getTrend(field)`: with fewer than two readings returns `'stable'`
(the `data.length < 2` guard is realized by the match); otherwise compares
`data[0][field]` against `data[1][field] ± 1` with JS semantics. -/
def getTrend (field : Field) (data : List Reading) : String :=
  match data with
  | a :: b :: _ =>
    let latest := a.getField field
    let previous := b.getField field
    if jsGT latest.toNum (previous.toNum.addQ 1) then "up"
    else if jsLT latest.toNum (previous.toNum.subQ 1) then "down"
    else "stable"
  | _ => "stable"

/-! ## Stats Engine (`calculateStats`, App.js 98-106) -/

/-- `Math.min(...values)` over a spread list of finite numbers:
`Infinity` on the empty call. -/
def jsMinList : List ℚ → JSNum
  | [] => .posInf
  | x :: xs => .num (xs.foldl min x)

/-- `Math.max(...values)`: `-Infinity` on the empty call. -/
def jsMaxList : List ℚ → JSNum
  | [] => .negInf
  | x :: xs => .num (xs.foldl max x)

/-- JS division `sum / length`: `0 / 0 = NaN`. -/
def jsDivNat (sum : ℚ) (n : Nat) : JSNum :=
  if n = 0 then .nan else .num (sum / (n : ℚ))

/-- `x.toFixed(1)` modelled by its numeric rounding to one decimal place
(`NaN`/`±Infinity` print as themselves). -/
def toFixed1 : JSNum → JSNum
  | .nan => .nan
  | .posInf => .posInf
  | .negInf => .negInf
  | .num q => .num ((⌊q * 10 + 1/2⌋ : ℚ) / 10)

structure Stats where
  min : JSNum
  max : JSNum
  avg : JSNum
deriving DecidableEq

/-- The test `v !== null && v !== undefined` keeps exactly the numeric
values of a field. -/
def numOrNone : JSVal → Option ℚ
  | .num q => some q
  | _ => none

/-- `calculateStats(field)`: the `filter(v => v !== null && v !== undefined)`
keeps exactly the numeric values, here produced directly by `filterMap`. -/
def calculateStats (field : Field) (data : List Reading) : Stats :=
  if data.length = 0 then { min := .num 0, max := .num 0, avg := .num 0 }
  else
    let values : List ℚ := (data.map (fun d => d.getField field)).filterMap numOrNone
    { min := toFixed1 (jsMinList values)
      max := toFixed1 (jsMaxList values)
      avg := toFixed1 (jsDivNat (values.foldl (· + ·) 0) values.length) }

/-! ## Normalizer / Poller (`fetchData`, App.js 31-71) -/

/-- The comparator `(a, b) => b.timestamp - a.timestamp`, read as the
ordering it induces: `a` may precede `b` when the comparator is `≤ 0`,
i.e. `b.timestamp ≤ a.timestamp`. -/
def tsLE (a b : Reading) : Bool := decide (b.timestamp ≤ a.timestamp)

/-- `json.sort((a, b) => b.timestamp - a.timestamp)`: JS `Array.sort` is a
stable sort (ES2019), modelled by the stable `List.mergeSort` under the
comparator's ordering (descending by timestamp). -/
def sortByTimestampDesc (xs : List Reading) : List Reading :=
  xs.mergeSort tsLE

/-- The component state touched by the engine (`useState` hooks of App.js
lines 6-12 that `fetchData`/`checkAlerts` write). -/
structure PollerState where
  data : List Reading
  loading : Bool
  error : Option String
  lastUpdate : Option Nat
  showAlert : Bool
  alertMessage : String
deriving DecidableEq

/-- `checkAlerts(latest)` as a state update (App.js 14-29): `undefined`
input returns immediately; a non-empty alert list is joined with `' | '`
and shown, an empty one hides the banner. -/
def checkAlerts (latest : Option Reading) (s : PollerState) : PollerState :=
  match latest with
  | none => s
  | some r =>
    let alerts := checkAlertsList r
    if alerts.length > 0 then
      { s with alertMessage := String.intercalate " | " alerts, showAlert := true }
    else
      { s with showAlert := false }

/-- A decoded JSON payload, restricted to the shapes the code
distinguishes: array elements are readings, and an object is recorded by
its `body` field when that field is a string (`obj none` also stands for
an object whose `body` is absent). -/
inductive Json where
  | null
  | boolean (b : Bool)
  | number (q : ℚ)
  | string (s : String)
  | arr (elems : List Reading)
  | obj (body : Option String)
deriving DecidableEq

/-- Outcome of `await fetch(...)` and `await response.json()`:
a rejected promise (network failure), or a response with a status code
whose body either fails to decode as JSON or yields a `Json` value. -/
inductive BodyResult where
  | invalidJson (msg : String)
  | decoded (j : Json)
deriving DecidableEq

inductive FetchOutcome where
  | transportError (msg : String)
  | httpResponse (status : Nat) (body : BodyResult)
deriving DecidableEq

/-- The message of the `TypeError` thrown by evaluating `json.body` when
`json` is `null` (the exact host wording is environment-dependent; the
engine only stores it opaquely). -/
def nullAccessMsg : String := "Cannot read properties of null (reading 'body')"

/-- The success path shared by both array shapes (App.js 44-48 and 52-56):
sort, replace the working set, stamp the update, clear the error, and
re-run `checkAlerts` on `sortedData[0]` (`undefined` when empty). -/
def ingest (now : Nat) (xs : List Reading) (s : PollerState) : PollerState :=
  let sorted := sortByTimestampDesc xs
  checkAlerts sorted.head?
    { s with data := sorted, lastUpdate := some now, error := none }

/-- The `try` block after a decoded 2xx body (App.js 43-58), including the
exceptions its own code can raise, which the surrounding `catch` stores:
`JSON.parse(json.body)` failure, and the `TypeError` from `json.body` when
`json` is `null`.  `parse` is the modelled `JSON.parse`; the truthiness
test `json.body` skips an absent or empty-string body. -/
def processJson (parse : String → Except String Json) (now : Nat)
    (j : Json) (s : PollerState) : PollerState :=
  match j with
  | .arr xs => ingest now xs s
  | .null => { s with error := some nullAccessMsg }
  | .obj (some bodyStr) =>
    if bodyStr ≠ "" then
      match parse bodyStr with
      | .ok (.arr xs) => ingest now xs s
      | .ok _ => s
      | .error msg => { s with error := some msg }
    else s
  | _ => s

/-- One whole `fetchData()` cycle (App.js 31-65): transport failure and
non-2xx (`!response.ok`, i.e. status outside 200-299) are caught and
stored as the error; a decoded body goes through normalization; the
`finally` clause always clears `loading`. -/
def fetchCycle (parse : String → Except String Json) (now : Nat)
    (outcome : FetchOutcome) (s : PollerState) : PollerState :=
  let s1 :=
    match outcome with
    | .transportError msg => { s with error := some msg }
    | .httpResponse status body =>
      if 200 ≤ status ∧ status ≤ 299 then
        match body with
        | .invalidJson msg => { s with error := some msg }
        | .decoded j => processJson parse now j s
      else
        { s with error := some ("HTTP error! status: " ++ toString status) }
  { s1 with loading := false }

/-- The event loop delivering fetch completions: each completing fetch runs
its continuation (`fetchCycle`) against the then-current state, in
completion order — the code carries no sequence number, so nothing is
discarded. -/
def runCompletions (parse : String → Except String Json)
    (completions : List (Nat × FetchOutcome)) (s : PollerState) : PollerState :=
  completions.foldl (fun st c => fetchCycle parse c.1 c.2 st) s

/-! ## Export Serializer (`exportToCSV`, App.js 73-96) -/

/-- `Array.prototype.join(sep)` for a one-character separator. -/
def arrayJoin (sep : Char) : List String → String
  | [] => ""
  | [x] => x
  | x :: y :: xs => x ++ String.singleton sep ++ arrayJoin sep (y :: xs)

/-- How `join` renders one element: `null` and `undefined` become the
empty string, numbers print as decimal text (modelled below by
`jsNumRepr`). -/
def natDigits (n : Nat) : List Char :=
  if _h : n < 10 then [Nat.digitChar n]
  else natDigits (n / 10) ++ [Nat.digitChar (n % 10)]
termination_by n
decreasing_by
  exact Nat.div_lt_self (Nat.pos_of_ne_zero (by omega)) (by omega)

/-- Decimal rendering of an integer. -/
def intRepr (i : Int) : String :=
  if i < 0 then "-" ++ ⟨natDigits i.natAbs⟩ else ⟨natDigits i.natAbs⟩

/-- Rendering of a finite JS number in a `join`: an injective, comma- and
newline-free stand-in for the host's decimal float formatting (integers
render exactly; non-integers as an exact fraction). -/
def jsNumRepr (q : ℚ) : String :=
  if q.den = 1 then intRepr q.num
  else intRepr q.num ++ "/" ++ (⟨natDigits q.den⟩ : String)

/-- A field value inside `[...].join(',')`. -/
def renderVal : JSVal → String
  | .undef => ""
  | .null => ""
  | .num q => jsNumRepr q

/-- `d.device_id` inside the join (`undefined` renders empty). -/
def renderDevice : Option String → String
  | none => ""
  | some s => s

/-- The header array of App.js line 76. -/
def csvHeaders : List String :=
  ["Timestamp", "Device ID", "Soil Moisture (%)", "Temperature (°C)",
   "Humidity (%)", "Light (lux)"]

/-- One data row (App.js 79-86); `dateFmt` models the locale-dependent
`new Date(d.timestamp).toLocaleString()`. -/
def csvRow (dateFmt : Int → String) (d : Reading) : String :=
  arrayJoin ','
    [dateFmt d.timestamp, renderDevice d.device_id, renderVal d.soil_moisture,
     renderVal d.temperature, renderVal d.humidity, renderVal d.light_lux]

/-- `exportToCSV` (App.js 73-96): an early return on an empty working set
(no document at all), otherwise the header row and one row per reading,
joined by newlines.  The produced text is returned (the download
side-effects are outside the engine). -/
def exportToCSV (dateFmt : Int → String) (data : List Reading) : Option String :=
  if data.length = 0 then none
  else some (arrayJoin '\n'
    (arrayJoin ',' csvHeaders :: data.map (csvRow dateFmt)))

/-- Character-level join (the `.data` image of `arrayJoin`). -/
def joinChars (sep : Char) : List (List Char) → List Char
  | [] => []
  | [x] => x
  | x :: y :: xs => x ++ sep :: joinChars sep (y :: xs)

/-- Re-splitting a string at a separator character (the consumer-side
operation the round-trip property talks about). -/
def splitOnChar (sep : Char) : List Char → List (List Char)
  | [] => [[]]
  | c :: cs =>
    match splitOnChar sep cs with
    | [] => [[]]
    | r :: rs => if c = sep then [] :: r :: rs else (c :: r) :: rs

/-- String-level re-splitting. -/
def ssplit (sep : Char) (s : String) : List String :=
  (splitOnChar sep s.data).map fun cs => ⟨cs⟩

/-- A string free of the CSV separators (no comma, no newline). -/
def noSep (s : String) : Prop :=
  ∀ c ∈ s.data, c ≠ ',' ∧ c ≠ '\n'

instance (s : String) : Decidable (noSep s) := by
  unfold noSep
  infer_instance

/-! ## Spec-side definitions (following the specification's words, for
comparison against the code's behavior) -/

/-- Spec-style "field present and `< threshold`", amended with the JS
coercion the code actually performs: an absent (`undefined`) field never
triggers, a `null` field compares as the number `0`. -/
def specTriggersBelow (v : JSVal) (threshold : ℚ) : Bool :=
  match v with
  | .undef => false
  | .null => decide ((0 : ℚ) < threshold)
  | .num q => decide (q < threshold)

/-- Spec-style "field present and `> threshold`", amended with `null ↦ 0`. -/
def specTriggersAbove (v : JSVal) (threshold : ℚ) : Bool :=
  match v with
  | .undef => false
  | .null => decide (threshold < (0 : ℚ))
  | .num q => decide (threshold < q)

/-- The §4.5 alert table in table order, amended for the `null`-coercion:
exactly the subset of the four fixed messages whose (coerced) condition
holds. -/
def specEvaluateAmended (r : Reading) : List String :=
  (if specTriggersBelow r.soil_moisture 30 then [soilMsg] else []) ++
  (if specTriggersAbove r.temperature 30 then [tempHighMsg] else []) ++
  (if specTriggersBelow r.temperature 15 then [tempLowMsg] else []) ++
  (if specTriggersBelow r.humidity 40 then [humMsg] else [])

/-- The value a measurement field contributes to a trend comparison:
absent (`undefined`) means "cannot compare", `null` is coerced to `0`. -/
def coerceMeasurement : JSVal → Option ℚ
  | .undef => none
  | .null => some 0
  | .num q => some q

/-- The §4.4 trend contract, amended with the `null ↦ 0` coercion:
dead-band of 1 unit, `stable` with fewer than two readings or an
incomparable (`undefined`) value. -/
def specTrendAmended (field : Field) (data : List Reading) : String :=
  match data with
  | a :: b :: _ =>
    match coerceMeasurement (a.getField field),
      coerceMeasurement (b.getField field) with
    | some latest, some previous =>
      if previous + 1 < latest then "up"
      else if latest < previous - 1 then "down"
      else "stable"
    | _, _ => "stable"
  | _ => "stable"

/-! ## Concrete instances used by counterexamples and witnesses -/

/-- A concrete stand-in for `JSON.parse`, agreeing with it on the inputs
used below. -/
def parse0 : String → Except String Json :=
  fun s => if s = "[]" then .ok (.arr []) else .error "SyntaxError: Unexpected token"

def r100 : Reading :=
  { timestamp := 100, device_id := some "esp32-1", soil_moisture := .num 45,
    temperature := .num 22, humidity := .num 55, light_lux := .num 500 }

def r200 : Reading :=
  { timestamp := 200, device_id := some "esp32-1", soil_moisture := .num 50,
    temperature := .num 22, humidity := .num 55, light_lux := .num 500 }

/-- The component's initial state (App.js lines 6-12). -/
def sInit : PollerState :=
  { data := [], loading := true, error := none, lastUpdate := none,
    showAlert := false, alertMessage := "" }

/-- A state with a populated working set and a recorded error. -/
def sPrior : PollerState :=
  { data := [r100], loading := false, error := some "Failed to fetch",
    lastUpdate := some 1, showAlert := false, alertMessage := "" }

/-- A reading carrying no measurement at all. -/
def rBare : Reading :=
  { timestamp := 100 }

/-- A second concrete `JSON.parse` stand-in, also decoding `"5"`. -/
def parse1 : String → Except String Json :=
  fun s =>
    if s = "[]" then .ok (.arr [])
    else if s = "5" then .ok (.number 5)
    else .error "SyntaxError: Unexpected token"

/-- A concrete locale formatter (comma- and newline-free). -/
def dateFmtW : Int → String := fun _ => "1/1/2026 10:00:00 AM"

/-! ## Helper lemmas -/

theorem checkAlerts_data (l : Option Reading) (s : PollerState) :
    (checkAlerts l s).data = s.data := by
  cases l with
  | none => rfl
  | some r => simp only [checkAlerts]; split <;> rfl

theorem checkAlerts_error (l : Option Reading) (s : PollerState) :
    (checkAlerts l s).error = s.error := by
  cases l with
  | none => rfl
  | some r => simp only [checkAlerts]; split <;> rfl

theorem checkAlerts_lastUpdate (l : Option Reading) (s : PollerState) :
    (checkAlerts l s).lastUpdate = s.lastUpdate := by
  cases l with
  | none => rfl
  | some r => simp only [checkAlerts]; split <;> rfl

theorem checkAlerts_loading (l : Option Reading) (s : PollerState) :
    (checkAlerts l s).loading = s.loading := by
  cases l with
  | none => rfl
  | some r => simp only [checkAlerts]; split <;> rfl

theorem ingest_data (now : Nat) (xs : List Reading) (s : PollerState) :
    (ingest now xs s).data = sortByTimestampDesc xs := by
  simp [ingest, checkAlerts_data]

theorem ingest_error (now : Nat) (xs : List Reading) (s : PollerState) :
    (ingest now xs s).error = none := by
  simp [ingest, checkAlerts_error]

theorem ingest_lastUpdate (now : Nat) (xs : List Reading) (s : PollerState) :
    (ingest now xs s).lastUpdate = some now := by
  simp [ingest, checkAlerts_lastUpdate]

theorem fetchCycle_arr_data (parse : String → Except String Json) (now : Nat)
    (xs : List Reading) (s : PollerState) :
    (fetchCycle parse now (.httpResponse 200 (.decoded (.arr xs))) s).data
      = sortByTimestampDesc xs := by
  simp [fetchCycle, processJson, ingest_data]

theorem tsLE_trans : ∀ a b c : Reading, tsLE a b → tsLE b c → tsLE a c := by
  intro a b c hab hbc
  simp only [tsLE, decide_eq_true_eq] at *
  omega

theorem tsLE_total : ∀ a b : Reading, tsLE a b || tsLE b a := by
  intro a b
  simp only [tsLE, Bool.or_eq_true, decide_eq_true_eq]
  omega

theorem sortByTimestampDesc_perm (xs : List Reading) :
    List.Perm (sortByTimestampDesc xs) xs :=
  List.mergeSort_perm xs tsLE

theorem sortByTimestampDesc_sorted (xs : List Reading) :
    (sortByTimestampDesc xs).Pairwise
      (fun a b => b.timestamp ≤ a.timestamp) := by
  have h := List.sorted_mergeSort tsLE_trans tsLE_total xs
  exact h.imp fun hab => by
    simpa only [tsLE, decide_eq_true_eq] using hab

theorem sortByTimestampDesc_stable (xs : List Reading) (t : Int) :
    (sortByTimestampDesc xs).filter (fun r => r.timestamp == t)
      = xs.filter (fun r => r.timestamp == t) := by
  set p : Reading → Bool := fun r => r.timestamp == t with hp
  have hpair : (xs.filter p).Pairwise fun a b => tsLE a b = true := by
    apply List.pairwise_of_forall_mem_list
    intro a ha b hb
    have ha' := (List.mem_filter.mp ha).2
    have hb' := (List.mem_filter.mp hb).2
    simp only [hp, beq_iff_eq] at ha' hb'
    simp [tsLE, ha', hb']
  have hsub : List.Sublist (xs.filter p) (sortByTimestampDesc xs) :=
    List.sublist_mergeSort tsLE_trans tsLE_total hpair (List.filter_sublist xs)
  have hsub2 : List.Sublist (xs.filter p) ((sortByTimestampDesc xs).filter p) := by
    have h := hsub.filter p
    simpa [List.filter_filter] using h
  have hlen : ((sortByTimestampDesc xs).filter p).length = (xs.filter p).length :=
    ((sortByTimestampDesc_perm xs).filter p).length_eq
  exact (hsub2.eq_of_length hlen.symm).symm

theorem splitOnChar_ne_nil (sep : Char) (l : List Char) :
    splitOnChar sep l ≠ [] := by
  induction l with
  | nil => simp [splitOnChar]
  | cons c cs ih =>
    cases h : splitOnChar sep cs with
    | nil => exact absurd h ih
    | cons r rs =>
      rw [splitOnChar, h]
      by_cases hcs : c = sep <;> simp [hcs]

theorem splitOnChar_eq_single (sep : Char) (l : List Char) (h : sep ∉ l) :
    splitOnChar sep l = [l] := by
  induction l with
  | nil => rfl
  | cons c cs ih =>
    have hc : c ≠ sep := fun e => h (e ▸ List.mem_cons_self c cs)
    have hcs : sep ∉ cs := fun m => h (List.mem_cons_of_mem _ m)
    rw [splitOnChar, ih hcs]
    simp [hc]

theorem splitOnChar_append (sep : Char) (x rest : List Char) (h : sep ∉ x) :
    splitOnChar sep (x ++ sep :: rest) = x :: splitOnChar sep rest := by
  induction x with
  | nil =>
    simp only [List.nil_append]
    cases hr : splitOnChar sep rest with
    | nil => exact absurd hr (splitOnChar_ne_nil sep rest)
    | cons r rs =>
      rw [splitOnChar, hr]
      simp
  | cons c cs ih =>
    have hc : c ≠ sep := fun e => h (e ▸ List.mem_cons_self c cs)
    have hcs : sep ∉ cs := fun m => h (List.mem_cons_of_mem _ m)
    rw [List.cons_append, splitOnChar, ih hcs]
    simp [hc]

theorem splitOnChar_joinChars (sep : Char) :
    ∀ parts : List (List Char), parts ≠ [] → (∀ p ∈ parts, sep ∉ p) →
      splitOnChar sep (joinChars sep parts) = parts
  | [], h, _ => absurd rfl h
  | [x], _, hall => by
    show splitOnChar sep x = [x]
    exact splitOnChar_eq_single sep x (hall x (by simp))
  | x :: y :: xs, _, hall => by
    show splitOnChar sep (x ++ sep :: joinChars sep (y :: xs)) = x :: y :: xs
    rw [splitOnChar_append sep x _ (hall x (by simp)),
      splitOnChar_joinChars sep (y :: xs) (by simp)
        (fun p hp => hall p (List.mem_cons_of_mem _ hp))]

theorem arrayJoin_data (sep : Char) :
    ∀ parts : List String,
      (arrayJoin sep parts).data = joinChars sep (parts.map String.data)
  | [] => rfl
  | [x] => rfl
  | x :: y :: xs => by
    show (x ++ String.singleton sep ++ arrayJoin sep (y :: xs)).data
      = x.data ++ sep :: joinChars sep ((y :: xs).map String.data)
    rw [String.data_append, String.data_append, arrayJoin_data sep (y :: xs)]
    simp [String.singleton]

theorem ssplit_arrayJoin (sep : Char) (parts : List String)
    (hne : parts ≠ []) (h : ∀ p ∈ parts, sep ∉ p.data) :
    ssplit sep (arrayJoin sep parts) = parts := by
  rw [ssplit, arrayJoin_data]
  rw [splitOnChar_joinChars sep (parts.map String.data) (by simpa using hne)
    (by intro p hp
        rcases List.mem_map.mp hp with ⟨q, hq, rfl⟩
        exact h q hq)]
  rw [List.map_map]
  have hid : ((fun cs => (⟨cs⟩ : String)) ∘ String.data) = id := funext fun s => rfl
  rw [hid, List.map_id]

theorem not_mem_joinChars (sep c : Char) (hc : c ≠ sep) :
    ∀ parts : List (List Char), (∀ p ∈ parts, c ∉ p) → c ∉ joinChars sep parts
  | [], _ => by
    show c ∉ ([] : List Char)
    simp
  | [x], h => by
    show c ∉ x
    exact h x (by simp)
  | x :: y :: xs, h => by
    show c ∉ x ++ sep :: joinChars sep (y :: xs)
    intro hmem
    rcases List.mem_append.mp hmem with h1 | h2
    · exact h x (by simp) h1
    · rcases List.mem_cons.mp h2 with h3 | h4
      · exact hc h3
      · exact not_mem_joinChars sep c hc (y :: xs)
          (fun p hp => h p (List.mem_cons_of_mem _ hp)) h4

theorem not_mem_arrayJoin (sep c : Char) (hc : c ≠ sep)
    (parts : List String) (h : ∀ p ∈ parts, c ∉ p.data) :
    c ∉ (arrayJoin sep parts).data := by
  rw [arrayJoin_data]
  apply not_mem_joinChars sep c hc
  intro p hp
  rcases List.mem_map.mp hp with ⟨q, hq, rfl⟩
  exact h q hq

theorem digitChar_noSep (d : Nat) (hd : d < 10) :
    Nat.digitChar d ≠ ',' ∧ Nat.digitChar d ≠ '\n' := by
  interval_cases d <;> exact (by decide)

theorem natDigits_noSep (n : Nat) :
    ∀ c ∈ natDigits n, c ≠ ',' ∧ c ≠ '\n' := by
  induction n using Nat.strong_induction_on with
  | _ n ih =>
    rw [natDigits]
    split
    next h =>
      intro c hc
      rw [List.mem_singleton] at hc
      subst hc
      exact digitChar_noSep n h
    next h =>
      intro c hc
      rcases List.mem_append.mp hc with h1 | h2
      · exact ih (n / 10) (Nat.div_lt_self (by omega) (by omega)) c h1
      · rw [List.mem_singleton] at h2
        subst h2
        exact digitChar_noSep (n % 10) (Nat.mod_lt _ (by omega))

theorem intRepr_noSep (i : Int) : noSep (intRepr i) := by
  intro c hc
  rw [intRepr] at hc
  split at hc
  · rw [String.data_append] at hc
    rcases List.mem_append.mp hc with h1 | h2
    · have : c = '-' := by simpa using h1
      subst this
      exact ⟨by decide, by decide⟩
    · exact natDigits_noSep _ c h2
  · exact natDigits_noSep _ c hc

theorem jsNumRepr_noSep (q : ℚ) : noSep (jsNumRepr q) := by
  intro c hc
  rw [jsNumRepr] at hc
  split at hc
  · exact intRepr_noSep _ c hc
  · rw [String.data_append, String.data_append] at hc
    rcases List.mem_append.mp hc with h1 | h2
    · rcases List.mem_append.mp h1 with h3 | h4
      · exact intRepr_noSep _ c h3
      · have : c = '/' := by simpa using h4
        subst this
        exact ⟨by decide, by decide⟩
    · exact natDigits_noSep _ c h2

theorem renderVal_noSep (v : JSVal) : noSep (renderVal v) := by
  cases v with
  | undef => intro c hc; simp [renderVal] at hc
  | null => intro c hc; simp [renderVal] at hc
  | num q => exact jsNumRepr_noSep q

/-! ## Claim theorems -/

/-- Claim C10 (confirmed): with an empty working set, `exportToCSV`
returns early and produces no document at all — not even a header-only
one (and, being pure here, touches no state). -/
theorem exportToCSV_empty (dateFmt : Int → String) :
    exportToCSV dateFmt [] = none := rfl

/-- Claim C3, counterexample: a reading whose `humidity` is `null` (all
other measurements absent) triggers the low-humidity alert, because JS
evaluates `null < 40` as `0 < 40`; the claim says a null field never
triggers its rule, i.e. predicts the empty list here. -/
theorem checkAlerts_null_triggers :
    (Reading.mk 100 none .undef .undef .null .undef).humidity = JSVal.null
    ∧ checkAlertsList (Reading.mk 100 none .undef .undef .null .undef) = [humMsg]
    ∧ [humMsg] ≠ ([] : List String) :=
  ⟨rfl, by decide, by decide⟩

/-- Claim C3, amended: `checkAlerts` produces exactly the subset of the
four fixed messages whose condition holds, in table order, where an
absent (`undefined`) field never triggers its rule but a `null` field is
coerced to the number `0` (so it does trigger the `< threshold` rules and
never the `> 30` rule). -/
theorem checkAlerts_table (r : Reading) :
    checkAlertsList r = specEvaluateAmended r := by
  rcases r with ⟨ts, dev, soil, temp, hum, lux⟩
  cases soil <;> cases temp <;> cases hum <;>
    simp [checkAlertsList, specEvaluateAmended, specTriggersBelow,
      specTriggersAbove, jsLT, jsGT, JSVal.toNum]

/-- Claim C6, counterexample: with latest `soil_moisture = 5` and previous
`soil_moisture = null`, the code computes `5 > null + 1`, i.e. `5 > 1`,
and returns `'up'`; the claim says a missing-or-null compared value always
gives `'stable'`. -/
theorem getTrend_null_up :
    getTrend .soil_moisture
      [Reading.mk 200 none (.num 5) .undef .undef .undef,
       Reading.mk 100 none .null .undef .undef .undef] = "up"
    ∧ "up" ≠ "stable" := by
  refine ⟨?_, by decide⟩
  simp [getTrend, Reading.getField, JSVal.toNum, JSNum.addQ, JSNum.subQ, jsGT, jsLT]

/-- Claim C6, amended: `getTrend` behaves exactly as the §4.4 contract
with the JS coercion made explicit: fewer than two readings give
`'stable'`; an `undefined` value on either side gives `'stable'`; a
`null` value is coerced to `0`; otherwise `'up'` iff latest > previous+1
and `'down'` iff latest < previous-1. -/
theorem getTrend_spec (field : Field) (data : List Reading) :
    getTrend field data = specTrendAmended field data := by
  match data with
  | [] => rfl
  | [a] => rfl
  | a :: b :: rest =>
    simp only [getTrend, specTrendAmended]
    cases ha : a.getField field <;> cases hb : b.getField field <;>
      simp [JSVal.toNum, JSNum.addQ, JSNum.subQ, jsGT, jsLT, coerceMeasurement]

/-- Claim C2, counterexample: a non-empty reading set in which the field
is absent everywhere does NOT yield `{0, 0, 0}`: `Math.min` of no values
is `Infinity`, `Math.max` is `-Infinity`, and the average is `0/0 = NaN`. -/
theorem calculateStats_absent_nonzero :
    calculateStats .soil_moisture [rBare]
      = { min := .posInf, max := .negInf, avg := .nan }
    ∧ ({ min := .posInf, max := .negInf, avg := .nan } : Stats)
        ≠ { min := .num 0, max := .num 0, avg := .num 0 } := by decide

/-- Claim C2, amended: when zero readings have the field present,
`calculateStats` returns `{0, 0, 0}` only for the empty reading set; for a
non-empty set with the field absent (or null) everywhere it returns
`{Infinity, -Infinity, NaN}`. -/
theorem calculateStats_no_field_present (field : Field) (data : List Reading)
    (h : ∀ r ∈ data, r.getField field = .undef ∨ r.getField field = .null) :
    calculateStats field data
      = if data.length = 0 then { min := .num 0, max := .num 0, avg := .num 0 }
        else { min := .posInf, max := .negInf, avg := .nan } := by
  by_cases hd : data.length = 0
  · simp [calculateStats, hd]
  · have hv : (data.map (fun d => d.getField field)).filterMap numOrNone = [] := by
      rw [List.filterMap_eq_nil_iff]
      intro v hvm
      rcases List.mem_map.mp hvm with ⟨r, hr, rfl⟩
      rcases h r hr with h' | h' <;> simp [h', numOrNone]
    simp [calculateStats, hd, hv, jsMinList, jsMaxList, jsDivNat, toFixed1]

/-- Witness for the amended C2 theorem at a concrete non-empty set. -/
theorem calculateStats_no_field_present_witness :
    (∀ r ∈ [rBare], r.getField .soil_moisture = .undef
        ∨ r.getField .soil_moisture = .null)
    ∧ calculateStats .soil_moisture [rBare]
        = if ([rBare] : List Reading).length = 0
          then { min := .num 0, max := .num 0, avg := .num 0 }
          else { min := .posInf, max := .negInf, avg := .nan } :=
  ⟨by decide, calculateStats_no_field_present .soil_moisture [rBare] (by decide)⟩

/-- Claim C1, counterexample: an object payload whose `body` parses to the
empty array (`{body: "[]"}`) takes the success branch, so it REPLACES the
working set with the empty set and CLEARS the recorded error, rather than
leaving both unchanged as the claim states. -/
theorem empty_payload_counterexample :
    (fetchCycle parse0 7 (.httpResponse 200 (.decoded (.obj (some "[]")))) sPrior).data
        ≠ sPrior.data
    ∧ (fetchCycle parse0 7 (.httpResponse 200 (.decoded (.obj (some "[]")))) sPrior).error
        ≠ sPrior.error := by
  constructor <;>
    simp [fetchCycle, processJson, parse0, ingest, sortByTimestampDesc,
      checkAlerts, sPrior, r100]

/-- Claim C1, amended: a payload normalizing to an empty sequence (a
top-level empty array, or an object whose `body` string parses to an empty
array) REPLACES the working set with the empty set, sets the last-update
stamp and CLEARS the last error; the alert evaluator is invoked on
`undefined` and returns immediately, so the alert state is unchanged
(visible in the record update below). -/
theorem empty_normalization_replaces (parse : String → Except String Json)
    (now : Nat) (s : PollerState) (bodyStr : String)
    (h1 : parse bodyStr = .ok (.arr [])) (h2 : bodyStr ≠ "") :
    fetchCycle parse now (.httpResponse 200 (.decoded (.arr []))) s
      = { s with data := [], lastUpdate := some now, error := none, loading := false }
    ∧ fetchCycle parse now (.httpResponse 200 (.decoded (.obj (some bodyStr)))) s
      = { s with data := [], lastUpdate := some now, error := none, loading := false } := by
  constructor
  · simp [fetchCycle, processJson, ingest, sortByTimestampDesc, checkAlerts]
  · simp [fetchCycle, processJson, h1, h2, ingest, sortByTimestampDesc, checkAlerts]

/-- Witness for the amended C1 theorem at a concrete parse function,
prior state, and body string. -/
theorem empty_normalization_replaces_witness :
    parse0 "[]" = .ok (.arr [])
    ∧ ("[]" : String) ≠ ""
    ∧ (fetchCycle parse0 7 (.httpResponse 200 (.decoded (.arr []))) sPrior
        = { sPrior with data := [], lastUpdate := some 7, error := none, loading := false }
      ∧ fetchCycle parse0 7 (.httpResponse 200 (.decoded (.obj (some "[]")))) sPrior
        = { sPrior with data := [], lastUpdate := some 7, error := none, loading := false }) :=
  ⟨rfl, by decide, empty_normalization_replaces parse0 7 sPrior "[]" rfl (by decide)⟩

/-- Claim C7 (confirmed): a transport failure records its message as the
last error; a non-2xx status records `HTTP error! status: <code>`; both
leave the working set untouched; and any cycle that replaces the working
set leaves the error cleared (`none`) — failures never escape `fetchData`
(it is a total function here). -/
theorem fetch_failure_recorded (parse : String → Except String Json)
    (now : Nat) (s : PollerState) (msg : String) (status : Nat)
    (body : BodyResult) (o : FetchOutcome)
    (hstat : ¬ (200 ≤ status ∧ status ≤ 299))
    (hchange : (fetchCycle parse now o s).data ≠ s.data) :
    ((fetchCycle parse now (.transportError msg) s).error = some msg
      ∧ (fetchCycle parse now (.transportError msg) s).data = s.data)
    ∧ ((fetchCycle parse now (.httpResponse status body) s).error
          = some ("HTTP error! status: " ++ toString status)
        ∧ (fetchCycle parse now (.httpResponse status body) s).data = s.data)
    ∧ (fetchCycle parse now o s).error = none := by
  refine ⟨⟨by simp [fetchCycle], by simp [fetchCycle]⟩,
    ⟨by simp [fetchCycle, hstat], by simp [fetchCycle, hstat]⟩, ?_⟩
  rcases o with msg' | ⟨status', body'⟩
  · exact absurd (by simp [fetchCycle]) hchange
  · by_cases hok : 200 ≤ status' ∧ status' ≤ 299
    · rcases body' with msg'' | j
      · exact absurd (by simp [fetchCycle, hok]) hchange
      · rcases j with _ | b | q | str | xs | ob
        · exact absurd (by simp [fetchCycle, hok, processJson]) hchange
        · exact absurd (by simp [fetchCycle, hok, processJson]) hchange
        · exact absurd (by simp [fetchCycle, hok, processJson]) hchange
        · exact absurd (by simp [fetchCycle, hok, processJson]) hchange
        · simp [fetchCycle, hok, processJson, ingest_error]
        · rcases ob with _ | bodyStr
          · exact absurd (by simp [fetchCycle, hok, processJson]) hchange
          · by_cases hbs : bodyStr = ""
            · exact absurd (by simp [fetchCycle, hok, processJson, hbs]) hchange
            · rcases hp : parse bodyStr with pmsg | pj
              · exact absurd
                  (by simp [fetchCycle, hok, processJson, hbs, hp]) hchange
              · rcases pj with _ | b | q | str | xs | ob2
                · exact absurd
                    (by simp [fetchCycle, hok, processJson, hbs, hp]) hchange
                · exact absurd
                    (by simp [fetchCycle, hok, processJson, hbs, hp]) hchange
                · exact absurd
                    (by simp [fetchCycle, hok, processJson, hbs, hp]) hchange
                · exact absurd
                    (by simp [fetchCycle, hok, processJson, hbs, hp]) hchange
                · simp [fetchCycle, hok, processJson, hbs, hp, ingest_error]
                · exact absurd
                    (by simp [fetchCycle, hok, processJson, hbs, hp]) hchange
    · exact absurd (by simp [fetchCycle, hok]) hchange

/-- Witness for C7: status 404 outside the 2xx range, and a successful
array ingestion over the empty initial set as the set-replacing cycle. -/
theorem fetch_failure_recorded_witness :
    (¬ (200 ≤ 404 ∧ 404 ≤ 299)
      ∧ (fetchCycle parse0 0
            (.httpResponse 200 (.decoded (.arr [r100]))) sInit).data ≠ sInit.data)
    ∧ (((fetchCycle parse0 0 (.transportError "Failed to fetch") sInit).error
            = some "Failed to fetch"
        ∧ (fetchCycle parse0 0 (.transportError "Failed to fetch") sInit).data
            = sInit.data)
      ∧ ((fetchCycle parse0 0 (.httpResponse 404 (.decoded .null)) sInit).error
            = some ("HTTP error! status: " ++ toString 404)
          ∧ (fetchCycle parse0 0 (.httpResponse 404 (.decoded .null)) sInit).data
              = sInit.data)
      ∧ (fetchCycle parse0 0
            (.httpResponse 200 (.decoded (.arr [r100]))) sInit).error = none) := by
  have hch : (fetchCycle parse0 0
      (.httpResponse 200 (.decoded (.arr [r100]))) sInit).data ≠ sInit.data := by
    rw [fetchCycle_arr_data]
    simp [sortByTimestampDesc, sInit]
  exact ⟨⟨by decide, hch⟩,
    fetch_failure_recorded parse0 0 sInit "Failed to fetch" 404 (.decoded .null)
      (.httpResponse 200 (.decoded (.arr [r100]))) (by decide) hch⟩

/-- Claim C8, counterexample: a decoded top-level `null` is in the claim's
scope ("including null"), yet the code evaluates `json.body` on it, which
throws a `TypeError` that the `catch` stores into the last-error field —
the error state does NOT stay unchanged. -/
theorem null_payload_records_error :
    (fetchCycle parse0 0 (.httpResponse 200 (.decoded .null)) sInit).error
      = some nullAccessMsg
    ∧ sInit.error = none
    ∧ some nullAccessMsg ≠ (none : Option String) := by
  refine ⟨?_, rfl, by simp⟩
  simp [fetchCycle, processJson]

/-- Claim C8, amended: booleans, numbers, strings, objects without a
truthy `body`, and objects whose `body` parses to a non-sequence all yield
an empty normalization with working set and last-error untouched (only
`loading` is cleared); but a top-level `null` records a `TypeError`
message, and a truthy `body` that fails to parse records the parse error. -/
theorem non_sequence_payloads (parse : String → Except String Json)
    (now : Nat) (s : PollerState) (b : Bool) (q : ℚ) (str : String)
    (s1 s2 msg : String) (j2 : Json)
    (h1 : s1 ≠ "") (hp1 : parse s1 = .error msg)
    (h2 : s2 ≠ "") (hp2 : parse s2 = .ok j2) (hj : ∀ xs, j2 ≠ .arr xs) :
    fetchCycle parse now (.httpResponse 200 (.decoded (.boolean b))) s
        = { s with loading := false }
    ∧ fetchCycle parse now (.httpResponse 200 (.decoded (.number q))) s
        = { s with loading := false }
    ∧ fetchCycle parse now (.httpResponse 200 (.decoded (.string str))) s
        = { s with loading := false }
    ∧ fetchCycle parse now (.httpResponse 200 (.decoded (.obj none))) s
        = { s with loading := false }
    ∧ fetchCycle parse now (.httpResponse 200 (.decoded (.obj (some "")))) s
        = { s with loading := false }
    ∧ fetchCycle parse now (.httpResponse 200 (.decoded (.obj (some s2)))) s
        = { s with loading := false }
    ∧ fetchCycle parse now (.httpResponse 200 (.decoded .null)) s
        = { s with error := some nullAccessMsg, loading := false }
    ∧ fetchCycle parse now (.httpResponse 200 (.decoded (.obj (some s1)))) s
        = { s with error := some msg, loading := false } := by
  refine ⟨by simp [fetchCycle, processJson], by simp [fetchCycle, processJson],
    by simp [fetchCycle, processJson], by simp [fetchCycle, processJson],
    by simp [fetchCycle, processJson], ?_, by simp [fetchCycle, processJson],
    by simp [fetchCycle, processJson, h1, hp1]⟩
  cases j2 with
  | arr xs => exact absurd rfl (hj xs)
  | null => simp [fetchCycle, processJson, h2, hp2]
  | boolean b2 => simp [fetchCycle, processJson, h2, hp2]
  | number q2 => simp [fetchCycle, processJson, h2, hp2]
  | string t2 => simp [fetchCycle, processJson, h2, hp2]
  | obj ob2 => simp [fetchCycle, processJson, h2, hp2]

/-- Witness for the amended C8 theorem with a concrete parse function
(`"oops"` fails to parse; `"5"` parses to the non-sequence `5`). -/
theorem non_sequence_payloads_witness :
    (("oops" : String) ≠ ""
      ∧ parse1 "oops" = .error "SyntaxError: Unexpected token"
      ∧ ("5" : String) ≠ ""
      ∧ parse1 "5" = .ok (.number 5)
      ∧ ∀ xs, Json.number 5 ≠ .arr xs)
    ∧ (fetchCycle parse1 0 (.httpResponse 200 (.decoded (.boolean true))) sInit
          = { sInit with loading := false }
      ∧ fetchCycle parse1 0 (.httpResponse 200 (.decoded (.number 3))) sInit
          = { sInit with loading := false }
      ∧ fetchCycle parse1 0 (.httpResponse 200 (.decoded (.string "x"))) sInit
          = { sInit with loading := false }
      ∧ fetchCycle parse1 0 (.httpResponse 200 (.decoded (.obj none))) sInit
          = { sInit with loading := false }
      ∧ fetchCycle parse1 0 (.httpResponse 200 (.decoded (.obj (some "")))) sInit
          = { sInit with loading := false }
      ∧ fetchCycle parse1 0 (.httpResponse 200 (.decoded (.obj (some "5")))) sInit
          = { sInit with loading := false }
      ∧ fetchCycle parse1 0 (.httpResponse 200 (.decoded .null)) sInit
          = { sInit with error := some nullAccessMsg, loading := false }
      ∧ fetchCycle parse1 0 (.httpResponse 200 (.decoded (.obj (some "oops")))) sInit
          = { sInit with error := some "SyntaxError: Unexpected token", loading := false }) :=
  ⟨⟨by decide, rfl, by decide, rfl, fun xs h => Json.noConfusion h⟩,
    non_sequence_payloads parse1 0 sInit true 3 "x" "oops" "5"
      "SyntaxError: Unexpected token" (.number 5)
      (by decide) rfl (by decide) rfl (fun xs h => Json.noConfusion h)⟩

/-- Claim C4, counterexample: the code carries no sequence numbers.  Two
refreshes are dispatched, the first with payload `[r100]`, the second with
payload `[r200]`; the second completes first.  When the stale first result
arrives later it is applied rather than discarded, so the final working
set is `[r100]`, not the later-dispatched `[r200]` the claim requires. -/
theorem stale_completion_applied :
    (runCompletions parse0
        [(2, .httpResponse 200 (.decoded (.arr [r200]))),
         (3, .httpResponse 200 (.decoded (.arr [r100])))] sInit).data = [r100]
    ∧ [r100] ≠ [r200] := by
  constructor
  · show (fetchCycle parse0 3 (.httpResponse 200 (.decoded (.arr [r100])))
        (fetchCycle parse0 2 (.httpResponse 200 (.decoded (.arr [r200]))) sInit)).data
      = [r100]
    rw [fetchCycle_arr_data]
    simp [sortByTimestampDesc]
  · decide

/-- Claim C4, amended: `refresh()` results carry no sequence numbers and
every completing fetch applies its result unconditionally, so the final
working set reflects the LAST-COMPLETED successful array ingestion,
regardless of dispatch order. -/
theorem last_completion_wins (parse : String → Except String Json)
    (s : PollerState) (cs : List (Nat × FetchOutcome)) (now : Nat)
    (xs : List Reading) :
    (runCompletions parse
        (cs ++ [(now, .httpResponse 200 (.decoded (.arr xs)))]) s).data
      = sortByTimestampDesc xs := by
  rw [runCompletions, List.foldl_append, List.foldl_cons, List.foldl_nil]
  exact fetchCycle_arr_data parse now xs _

/-- Claim C5 (confirmed): for every non-empty input sequence, the
normalized output is a permutation of the input, sorted descending by
timestamp, and stable — readings with any given timestamp appear in the
same relative order as in the input. -/
theorem normalizer_sorted_stable_perm (xs : List Reading) (_h : xs ≠ []) :
    List.Perm (sortByTimestampDesc xs) xs
    ∧ (sortByTimestampDesc xs).Pairwise (fun a b => b.timestamp ≤ a.timestamp)
    ∧ ∀ t : Int, (sortByTimestampDesc xs).filter (fun r => r.timestamp == t)
        = xs.filter (fun r => r.timestamp == t) :=
  ⟨sortByTimestampDesc_perm xs, sortByTimestampDesc_sorted xs,
    fun t => sortByTimestampDesc_stable xs t⟩

/-- Witness for C5 at the concrete non-empty input `[r100]`. -/
theorem normalizer_sorted_stable_perm_witness :
    ([r100] : List Reading) ≠ []
    ∧ (List.Perm (sortByTimestampDesc [r100]) [r100]
      ∧ (sortByTimestampDesc [r100]).Pairwise (fun a b => b.timestamp ≤ a.timestamp)
      ∧ ∀ t : Int, (sortByTimestampDesc [r100]).filter (fun r => r.timestamp == t)
          = [r100].filter (fun r => r.timestamp == t)) :=
  ⟨by simp, normalizer_sorted_stable_perm [r100] (by simp)⟩

/-- Claim C9 (confirmed, with the locale date formatter abstracted): for a
non-empty reading set whose formatted dates and device ids contain no
comma or newline, the export is the fixed header row plus one row per
reading in order; splitting the document by newline recovers exactly those
rows, and splitting each row by comma recovers exactly the six rendered
fields, with absent (`undefined`/`null`) measurements rendered as the
empty field (never the words `null`/`undefined`). -/
theorem csv_round_trip (dateFmt : Int → String) (data : List Reading)
    (hne : data ≠ [])
    (hdate : ∀ r ∈ data, noSep (dateFmt r.timestamp))
    (hdev : ∀ r ∈ data, noSep (renderDevice r.device_id)) :
    renderVal .undef = "" ∧ renderVal .null = ""
    ∧ ∃ doc, exportToCSV dateFmt data = some doc
      ∧ ssplit '\n' doc = arrayJoin ',' csvHeaders :: data.map (csvRow dateFmt)
      ∧ ∀ r ∈ data, ssplit ',' (csvRow dateFmt r)
          = [dateFmt r.timestamp, renderDevice r.device_id,
             renderVal r.soil_moisture, renderVal r.temperature,
             renderVal r.humidity, renderVal r.light_lux] := by
  refine ⟨rfl, rfl,
    arrayJoin '\n' (arrayJoin ',' csvHeaders :: data.map (csvRow dateFmt)),
    ?_, ?_, ?_⟩
  · rw [exportToCSV, if_neg (by simpa [List.length_eq_zero] using hne)]
  · apply ssplit_arrayJoin
    · simp
    · intro p hp
      rcases List.mem_cons.mp hp with rfl | hp'
      · decide
      · rcases List.mem_map.mp hp' with ⟨r, hr, rfl⟩
        rw [csvRow]
        apply not_mem_arrayJoin ',' '\n' (by decide)
        intro f hf
        simp only [List.mem_cons, List.not_mem_nil, or_false] at hf
        rcases hf with rfl | rfl | rfl | rfl | rfl | rfl
        · exact fun m => ((hdate r hr) _ m).2 rfl
        · exact fun m => ((hdev r hr) _ m).2 rfl
        · exact fun m => (renderVal_noSep _ _ m).2 rfl
        · exact fun m => (renderVal_noSep _ _ m).2 rfl
        · exact fun m => (renderVal_noSep _ _ m).2 rfl
        · exact fun m => (renderVal_noSep _ _ m).2 rfl
  · intro r hr
    rw [csvRow]
    apply ssplit_arrayJoin
    · simp
    · intro f hf
      simp only [List.mem_cons, List.not_mem_nil, or_false] at hf
      rcases hf with rfl | rfl | rfl | rfl | rfl | rfl
      · exact fun m => ((hdate r hr) _ m).1 rfl
      · exact fun m => ((hdev r hr) _ m).1 rfl
      · exact fun m => (renderVal_noSep _ _ m).1 rfl
      · exact fun m => (renderVal_noSep _ _ m).1 rfl
      · exact fun m => (renderVal_noSep _ _ m).1 rfl
      · exact fun m => (renderVal_noSep _ _ m).1 rfl

/-- Witness for C9 at a concrete formatter and one-reading set. -/
theorem csv_round_trip_witness :
    (([r100] : List Reading) ≠ []
      ∧ (∀ r ∈ [r100], noSep (dateFmtW r.timestamp))
      ∧ (∀ r ∈ [r100], noSep (renderDevice r.device_id)))
    ∧ (renderVal .undef = "" ∧ renderVal .null = ""
      ∧ ∃ doc, exportToCSV dateFmtW [r100] = some doc
        ∧ ssplit '\n' doc
            = arrayJoin ',' csvHeaders :: [r100].map (csvRow dateFmtW)
        ∧ ∀ r ∈ [r100], ssplit ',' (csvRow dateFmtW r)
            = [dateFmtW r.timestamp, renderDevice r.device_id,
               renderVal r.soil_moisture, renderVal r.temperature,
               renderVal r.humidity, renderVal r.light_lux]) :=
  ⟨⟨by decide, by decide, by decide⟩,
    csv_round_trip dateFmtW [r100] (by decide) (by decide) (by decide)⟩

end PlantDashboard
